import Mathlib

/-!
Shallow embedding of `src/src-tauri/icons/gen_icon.py`, a 39-line script that
hand-encodes two image files: a 16×16 `icon.ico` and a 32×32 `icon.png`.
Byte strings are modelled as `List Nat` (each element a byte value < 256);
`struct.pack` fields become explicit little and big endian byte serializations.
-/

set_option maxRecDepth 100000

set_option maxHeartbeats 2000000

namespace GenIcon

/-- Little-endian 16-bit serialization (Python struct format `H`). -/
def pack16LE (n : Nat) : List Nat := [n % 256, n / 256 % 256]

/-- Little-endian 32-bit serialization (Python struct formats `I`/`i`;
all values packed by the script are nonnegative). -/
def pack32LE (n : Nat) : List Nat :=
  [n % 256, n / 256 % 256, n / 65536 % 256, n / 16777216 % 256]

/-- Big-endian 32-bit serialization (Python struct format `>I`). -/
def pack32BE (n : Nat) : List Nat :=
  [n / 16777216 % 256, n / 65536 % 256, n / 256 % 256, n % 256]

/-- Python bytes repetition `b * n`. -/
def bytesRepeat (b : List Nat) (n : Nat) : List Nat := List.flatten (List.replicate n b)

/-- Source line 8: `w, h = 16, 16`. -/
def w : Nat := 16

/-- Source line 8: `w, h = 16, 16`. -/
def h : Nat := 16

/-- Source line 9: `info = struct.pack('<IiiHHIIiiII', 40, w, h * 2, 1, 32, 0, 0, 0, 0, 0, 0)`
— the 40-byte BITMAPINFOHEADER. -/
def info : List Nat :=
  pack32LE 40 ++ pack32LE w ++ pack32LE (h * 2) ++ pack16LE 1 ++ pack16LE 32 ++
  pack32LE 0 ++ pack32LE 0 ++ pack32LE 0 ++ pack32LE 0 ++ pack32LE 0 ++ pack32LE 0

/-- The 4-byte fill used for the ICO pixel array, source line 10: bytes f6 82 3b ff. -/
def fillBGRA : List Nat := [0xf6, 0x82, 0x3b, 0xff]

/-- Source line 10: `px = b'\xf6\x82\x3b\xff' * w * h` (left-associated: `(fill * w) * h`). -/
def px : List Nat := bytesRepeat (bytesRepeat fillBGRA w) h

/-- Source line 11: `mask = b'\x00' * h * 4`. -/
def mask : List Nat := bytesRepeat (bytesRepeat [0] h) 4

/-- Source line 12: `img = info + px + mask`. -/
def img : List Nat := info ++ px ++ mask

/-- Source line 13: `hdr = struct.pack('<HHH', 0, 1, 1)` — the 6-byte ICONDIR. -/
def hdr : List Nat := pack16LE 0 ++ pack16LE 1 ++ pack16LE 1

/-- Source line 14: `d = struct.pack('<BBBBHHII', w, h, 0, 0, 1, 32, len(img), 22)`
— the 16-byte ICONDIRENTRY (fields: width, height, color count, reserved,
planes, bit count, bytes-in-resource, image offset). -/
def d : List Nat :=
  [w % 256, h % 256, 0, 0] ++ pack16LE 1 ++ pack16LE 32 ++
  pack32LE img.length ++ pack32LE 22

/-- Source line 17: the complete contents written to `icon.ico`: `hdr + d + img`. -/
def icoBytes : List Nat := hdr ++ d ++ img

/-- Source line 21: `w2, h2 = 32, 32`. -/
def w2 : Nat := 32

/-- Source line 21: `w2, h2 = 32, 32`. -/
def h2 : Nat := 32

/-- The 4-byte fill used for the PNG scanlines, source line 24: bytes 3b 82 f6 ff. -/
def fillRGBA : List Nat := [0x3b, 0x82, 0xf6, 0xff]

/-- Source lines 22-24: the loop
`raw = b''; for _ in range(h2): raw += b'\x00' + b'\x3b\x82\xf6\xff' * w2`. -/
def raw : List Nat :=
  (List.range h2).foldl (fun acc _ => acc ++ (0 :: bytesRepeat fillRGBA w2)) []

/-- Source line 26: `ihdr_data = struct.pack('>IIBBBBB', w2, h2, 8, 6, 0, 0, 0)`. -/
def ihdr_data : List Nat := pack32BE w2 ++ pack32BE h2 ++ [8, 6, 0, 0, 0]

/-- One bit step of the reflected CRC-32 (polynomial 0xedb88320), as used by
`zlib.crc32`. -/
def crc32Round (c : Nat) : Nat :=
  if c % 2 = 1 then Nat.xor 0xedb88320 (c / 2) else c / 2

/-- Absorb one byte into a CRC-32 accumulator: xor it in, then eight bit steps. -/
def crc32UpdateByte (c b : Nat) : Nat :=
  crc32Round (crc32Round (crc32Round (crc32Round
    (crc32Round (crc32Round (crc32Round (crc32Round (Nat.xor c b))))))))

/-- Modelled from the spec: `zlib.crc32` (Python standard library, not in src)
— the standard PNG/zlib CRC-32: initial value 0xffffffff, reflected polynomial
0xedb88320, final xor 0xffffffff. Validated against the standard check value
crc32 of the bytes of the string 123456789 = 0xcbf43926. -/
def crc32 (data : List Nat) : Nat :=
  Nat.xor (data.foldl crc32UpdateByte 0xffffffff) 0xffffffff

/-- Modelled from the spec: the Adler-32 checksum that terminates every zlib
stream (RFC 1950): two running sums modulo 65521, result b*65536 + a. -/
def adler32 (data : List Nat) : Nat :=
  let p := data.foldl (fun (ab : Nat × Nat) x =>
    ((ab.1 + x) % 65521, (ab.2 + ab.1 + x) % 65521)) (1, 0)
  p.2 * 65536 + p.1

/-- Modelled from the spec: `zlib.compress` (Python standard library, not in
src) — "a standard deflate/zlib compressor". Modelled as a valid RFC-1950 zlib
stream holding one final stored (uncompressed) deflate block: the 2-byte
header 0x78 0x01, block header byte 0x01 (BFINAL=1, BTYPE=00), LEN and its
one's complement NLEN as little-endian 16-bit values, the literal data, and
the big-endian Adler-32 of the data. Faithful for data shorter than 65536
bytes (the only use here is the 4128-byte raw buffer). -/
def zlibCompress (data : List Nat) : List Nat :=
  0x78 :: 0x01 :: 0x01 :: (data.length % 256) :: (data.length / 256 % 256) ::
  (255 - data.length % 256) :: (255 - data.length / 256 % 256) ::
  (data ++ pack32BE (adler32 data))

/-- Modelled from the spec: zlib decompression of a stream in the image of
`zlibCompress` — checks the zlib header (CMF 0x78, FCHECK consistency),
the stored-block framing (BFINAL=1, NLEN the complement of LEN, exact stream
length) and the trailing Adler-32, and recovers the literal data. -/
def zlibDecompress (bs : List Nat) : Option (List Nat) :=
  if bs.getD 0 0 = 0x78 ∧ (0x78 * 256 + bs.getD 1 0) % 31 = 0 ∧ bs.getD 2 0 = 1 ∧
     bs.getD 5 0 = 255 - bs.getD 3 0 ∧ bs.getD 6 0 = 255 - bs.getD 4 0 ∧
     bs.length = 7 + (bs.getD 3 0 + 256 * bs.getD 4 0) + 4 ∧
     bs.drop (7 + (bs.getD 3 0 + 256 * bs.getD 4 0)) =
       pack32BE (adler32 ((bs.drop 7).take (bs.getD 3 0 + 256 * bs.getD 4 0)))
  then some ((bs.drop 7).take (bs.getD 3 0 + 256 * bs.getD 4 0))
  else none

/-- Source lines 28-30: `png_chunk(chunk_type, data)` — big-endian length,
type tag, payload, big-endian CRC-32 of type+payload (the Python applies
`& 0xffffffff` to the CRC, modelled by `Nat.land`). -/
def png_chunk (ty data : List Nat) : List Nat :=
  pack32BE data.length ++ ty ++ data ++
  pack32BE (Nat.land (crc32 (ty ++ data)) 0xffffffff)

/-- Source line 36: the IDAT payload `zlib.compress(raw)`. -/
def idatPayload : List Nat := zlibCompress raw

/-- Source line 34: the 8-byte PNG signature `b'\x89PNG\r\n\x1a\n'`. -/
def pngSignature : List Nat := [0x89, 0x50, 0x4e, 0x47, 0x0d, 0x0a, 0x1a, 0x0a]

/-- ASCII bytes of the chunk tag IHDR (source line 35). -/
def tyIHDR : List Nat := [0x49, 0x48, 0x44, 0x52]

/-- ASCII bytes of the chunk tag IDAT (source line 36). -/
def tyIDAT : List Nat := [0x49, 0x44, 0x41, 0x54]

/-- ASCII bytes of the chunk tag IEND (source line 37). -/
def tyIEND : List Nat := [0x49, 0x45, 0x4e, 0x44]

/-- Source lines 33-37: the complete contents written to `icon.png`:
signature, then the IHDR, IDAT and IEND chunks in that order. -/
def pngBytes : List Nat :=
  pngSignature ++ png_chunk tyIHDR ihdr_data ++
  png_chunk tyIDAT idatPayload ++ png_chunk tyIEND []

/-- Decode a little-endian 16-bit field at byte offset `i`. -/
def le16At (bs : List Nat) (i : Nat) : Nat := bs.getD i 0 + 256 * bs.getD (i + 1) 0

/-- Decode a little-endian 32-bit field at byte offset `i`. -/
def le32At (bs : List Nat) (i : Nat) : Nat :=
  bs.getD i 0 + 256 * bs.getD (i + 1) 0 + 65536 * bs.getD (i + 2) 0 +
  16777216 * bs.getD (i + 3) 0

/-- Decode a big-endian 32-bit field at byte offset `i`. -/
def be32At (bs : List Nat) (i : Nat) : Nat :=
  ((bs.getD i 0 * 256 + bs.getD (i + 1) 0) * 256 + bs.getD (i + 2) 0) * 256 +
  bs.getD (i + 3) 0

/-- Independent parser for a PNG chunk stream: reads the big-endian length,
the 4-byte tag, the payload and the 4-byte checksum field, recomputes the
CRC-32 over tag+payload and compares it with the checksum field; fails on a
mismatch or on truncated input. Fuel bounds the recursion. -/
def parseChunks : Nat → List Nat → Option (List (List Nat × List Nat))
  | 0, bs => if bs = [] then some [] else none
  | fuel + 1, bs =>
      if bs = [] then some []
      else if bs.length ≥ 12 + be32At bs 0 ∧
         (bs.drop (8 + be32At bs 0)).take 4 =
           pack32BE (crc32 ((bs.drop 4).take 4 ++ (bs.drop 8).take (be32At bs 0))) then
        Option.map (fun cs => (((bs.drop 4).take 4, (bs.drop 8).take (be32At bs 0)) :: cs))
          (parseChunks fuel (bs.drop (12 + be32At bs 0)))
      else none

/-- Independent parser for a whole PNG file: checks the 8-byte signature, then
parses the chunk stream to exhaustion. -/
def parsePng (bs : List Nat) : Option (List (List Nat × List Nat)) :=
  if bs.take 8 = pngSignature then parseChunks bs.length (bs.drop 8) else none

/-- The program takes no inputs; a run produces the `icon.ico` contents and
the `icon.png` contents. -/
def runGenerator : Unit → List Nat × List Nat := fun _ => (icoBytes, pngBytes)

/-- BGRA reordering of a 4-byte RGBA pixel. -/
def bgraOfRGBA (c : List Nat) : List Nat := [c.getD 2 0, c.getD 1 0, c.getD 0 0, c.getD 3 0]

/-- Supporting lemma: `zlibDecompress` inverts `zlibCompress` on any byte list
shorter than 65536 bytes. -/
theorem zlibDecompress_zlibCompress (data : List Nat) (hlen : data.length < 65536) :
    zlibDecompress (zlibCompress data) = some data := by
  have hL : data.length % 256 + 256 * (data.length / 256 % 256) = data.length := by
    omega
  have h3 : (zlibCompress data).getD 3 0 = data.length % 256 := rfl
  have h4 : (zlibCompress data).getD 4 0 = data.length / 256 % 256 := rfl
  have hdrop7 : (zlibCompress data).drop 7 = data ++ pack32BE (adler32 data) := rfl
  have htake : (data ++ pack32BE (adler32 data)).take data.length = data :=
    List.take_left' rfl
  have hdropL : (data ++ pack32BE (adler32 data)).drop data.length =
      pack32BE (adler32 data) := List.drop_left' rfl
  have hlen2 : (zlibCompress data).length = data.length + 11 := by
    simp [zlibCompress, pack32BE]
  have hdropAll : (zlibCompress data).drop
      (7 + ((zlibCompress data).getD 3 0 + 256 * (zlibCompress data).getD 4 0)) =
      pack32BE (adler32 data) := by
    rw [h3, h4, hL, ← List.drop_drop, hdrop7, hdropL]
  have hcond : (zlibCompress data).getD 0 0 = 0x78 ∧
      (0x78 * 256 + (zlibCompress data).getD 1 0) % 31 = 0 ∧
      (zlibCompress data).getD 2 0 = 1 ∧
      (zlibCompress data).getD 5 0 = 255 - (zlibCompress data).getD 3 0 ∧
      (zlibCompress data).getD 6 0 = 255 - (zlibCompress data).getD 4 0 ∧
      (zlibCompress data).length =
        7 + ((zlibCompress data).getD 3 0 + 256 * (zlibCompress data).getD 4 0) + 4 ∧
      (zlibCompress data).drop
          (7 + ((zlibCompress data).getD 3 0 + 256 * (zlibCompress data).getD 4 0)) =
        pack32BE (adler32 (((zlibCompress data).drop 7).take
          ((zlibCompress data).getD 3 0 + 256 * (zlibCompress data).getD 4 0))) := by
    have h1 : (zlibCompress data).getD 1 0 = 1 := rfl
    refine ⟨rfl, ?_, rfl, rfl, rfl, ?_, ?_⟩
    · rw [h1]
    · rw [h3, h4, hL, hlen2]
      omega
    · rw [hdropAll, h3, h4, hL, hdrop7, htake]
  unfold zlibDecompress
  rw [if_pos hcond, h3, h4, hL, hdrop7, htake]

theorem pack32BE_length (n : Nat) : (pack32BE n).length = 4 := rfl

theorem bytesRepeat_length (b : List Nat) (n : Nat) :
    (bytesRepeat b n).length = n * b.length := by
  simp [bytesRepeat, List.length_flatten, List.map_replicate, List.sum_replicate,
    smul_eq_mul]

theorem flatten_replicate_succ (s : List Nat) (n : Nat) :
    List.flatten (List.replicate (n + 1) s) = List.flatten (List.replicate n s) ++ s := by
  induction n with
  | zero => simp
  | succ k ih =>
      calc List.flatten (List.replicate (k + 1 + 1) s)
          = s ++ List.flatten (List.replicate (k + 1) s) := by
            rw [List.replicate_succ, List.flatten_cons]
        _ = s ++ (List.flatten (List.replicate k s) ++ s) := by rw [ih]
        _ = (s ++ List.flatten (List.replicate k s)) ++ s :=
            (List.append_assoc _ _ _).symm
        _ = List.flatten (List.replicate (k + 1) s) ++ s := by
            rw [List.replicate_succ, List.flatten_cons]

theorem foldl_append_range (s : List Nat) :
    ∀ (n : Nat) (acc : List Nat),
      (List.range n).foldl (fun a _ => a ++ s) acc = acc ++ List.flatten (List.replicate n s) := by
  intro n
  induction n with
  | zero => intro acc; simp
  | succ k ih =>
      intro acc
      rw [List.range_succ, List.foldl_append, ih acc, flatten_replicate_succ,
        List.foldl_cons, List.foldl_nil, List.append_assoc]

theorem raw_eq : raw = bytesRepeat (0 :: bytesRepeat fillRGBA w2) h2 := by
  rw [raw, foldl_append_range, List.nil_append]
  rfl

theorem raw_length : raw.length = 4128 := by
  rw [raw_eq, bytesRepeat_length]
  decide

theorem pow32_eq : (2 : Nat) ^ 32 = 4294967296 := by norm_num

theorem xor_lt_mask (x y : Nat) (hx : x < 4294967296) (hy : y < 4294967296) :
    Nat.xor x y < 4294967296 := by
  have h : x ^^^ y < 2 ^ 32 :=
    Nat.xor_lt_two_pow (by rw [pow32_eq]; exact hx) (by rw [pow32_eq]; exact hy)
  rw [pow32_eq] at h
  exact h

theorem crc32Round_lt (c : Nat) (hc : c < 4294967296) : crc32Round c < 4294967296 := by
  unfold crc32Round
  split
  · exact xor_lt_mask _ _ (by norm_num) (by omega)
  · omega

theorem crc32UpdateByte_lt (c b : Nat) (hc : c < 4294967296) (hb : b < 4294967296) :
    crc32UpdateByte c b < 4294967296 := by
  unfold crc32UpdateByte
  exact crc32Round_lt _ (crc32Round_lt _ (crc32Round_lt _ (crc32Round_lt _
    (crc32Round_lt _ (crc32Round_lt _ (crc32Round_lt _ (crc32Round_lt _
      (xor_lt_mask c b hc hb))))))))

theorem crc32_foldl_lt (data : List Nat) :
    ∀ (c : Nat), c < 4294967296 → (∀ x ∈ data, x < 4294967296) →
      data.foldl crc32UpdateByte c < 4294967296 := by
  induction data with
  | nil => intro c hc _; simpa using hc
  | cons b l ih =>
      intro c hc hmem
      rw [List.foldl_cons]
      exact ih _ (crc32UpdateByte_lt c b hc (hmem b (by simp)))
        (fun x hx => hmem x (by simp [hx]))

theorem crc32_lt (data : List Nat) (hmem : ∀ x ∈ data, x < 4294967296) :
    crc32 data < 4294967296 := by
  unfold crc32
  exact xor_lt_mask _ _ (crc32_foldl_lt data 0xffffffff (by norm_num) hmem)
    (by norm_num)

theorem land_mask_eq (c : Nat) (hc : c < 4294967296) :
    Nat.land c 0xffffffff = c := by
  have h : c &&& (2 ^ 32 - 1) = c % 2 ^ 32 := Nat.and_pow_two_sub_one_eq_mod c 32
  have e2 : c % 2 ^ 32 = c := Nat.mod_eq_of_lt (by rw [pow32_eq]; exact hc)
  have e3 : ((2 : Nat) ^ 32 - 1) = 0xffffffff := by norm_num
  rw [e3] at h
  show c &&& 0xffffffff = c
  rw [h, e2]

theorem mem_bytesRepeat (b : List Nat) (n x : Nat) (hx : x ∈ bytesRepeat b n) : x ∈ b := by
  simp only [bytesRepeat, List.mem_flatten, List.mem_replicate] at hx
  obtain ⟨l, ⟨_, rfl⟩, hxl⟩ := hx
  exact hxl

theorem raw_bytes_lt : ∀ x ∈ raw, x < 4294967296 := by
  intro x hx
  rw [raw_eq] at hx
  have hx2 := mem_bytesRepeat _ _ _ hx
  rcases List.mem_cons.mp hx2 with h0 | h1
  · omega
  · have := mem_bytesRepeat _ _ _ h1
    fin_cases this <;> norm_num

theorem mem_pack32BE_lt (n x : Nat) (hx : x ∈ pack32BE n) : x < 4294967296 := by
  simp only [pack32BE, List.mem_cons, List.not_mem_nil, or_false] at hx
  rcases hx with rfl | rfl | rfl | rfl <;>
    exact lt_of_lt_of_le (Nat.mod_lt _ (by norm_num)) (by norm_num)

theorem idat_bytes_lt : ∀ x ∈ idatPayload, x < 4294967296 := by
  intro x hx
  simp only [idatPayload, zlibCompress, List.mem_cons, List.mem_append] at hx
  rcases hx with h | h | h | h | h | h | h | h | h
  · omega
  · omega
  · omega
  · omega
  · omega
  · omega
  · omega
  · exact raw_bytes_lt x h
  · exact mem_pack32BE_lt _ _ h

theorem idat_length : idatPayload.length = 4139 := by
  simp only [idatPayload, zlibCompress, List.length_cons, List.length_append,
    pack32BE_length, raw_length]

theorem png_chunk_length (ty data : List Nat) (hty : ty.length = 4) :
    (png_chunk ty data).length = 12 + data.length := by
  simp only [png_chunk, List.length_append, pack32BE_length, hty]
  omega

theorem parseChunks_nil (fuel : Nat) : parseChunks fuel [] = some [] := by
  cases fuel <;> simp [parseChunks]

theorem parseChunks_step (fuel : Nat) (ty data rest : List Nat)
    (hty : ty.length = 4) (hdlen : data.length < 4294967296)
    (hcrc : crc32 (ty ++ data) < 4294967296) :
    parseChunks (fuel + 1) (png_chunk ty data ++ rest) =
      Option.map (fun cs => (ty, data) :: cs) (parseChunks fuel rest) := by
  have hassoc : png_chunk ty data ++ rest =
      pack32BE data.length ++
        (ty ++ (data ++ (pack32BE (crc32 (ty ++ data)) ++ rest))) := by
    simp only [png_chunk, land_mask_eq _ hcrc, List.append_assoc]
  set bs := png_chunk ty data ++ rest with hbs
  have hlen : bs.length = 12 + data.length + rest.length := by
    rw [hassoc]
    simp only [List.length_append, pack32BE_length, hty]
    omega
  have hg0 : bs.getD 0 0 = data.length / 16777216 % 256 := by rw [hassoc]; rfl
  have hg1 : bs.getD 1 0 = data.length / 65536 % 256 := by rw [hassoc]; rfl
  have hg2 : bs.getD 2 0 = data.length / 256 % 256 := by rw [hassoc]; rfl
  have hg3 : bs.getD 3 0 = data.length % 256 := by rw [hassoc]; rfl
  have hb0 : be32At bs 0 = data.length := by
    rw [be32At, hg0, hg1, hg2, hg3]
    omega
  have hdrop4 : bs.drop 4 = ty ++ (data ++ (pack32BE (crc32 (ty ++ data)) ++ rest)) := by
    rw [hassoc]; rfl
  have htake4 : (bs.drop 4).take 4 = ty := by
    rw [hdrop4]
    exact List.take_left' hty
  have hdrop8 : bs.drop 8 = data ++ (pack32BE (crc32 (ty ++ data)) ++ rest) := by
    rw [show (8 : Nat) = 4 + 4 from rfl, ← List.drop_drop, hdrop4]
    exact List.drop_left' hty
  have htakeL : (bs.drop 8).take data.length = data := by
    rw [hdrop8]
    exact List.take_left' rfl
  have hdrop8L : bs.drop (8 + data.length) = pack32BE (crc32 (ty ++ data)) ++ rest := by
    rw [← List.drop_drop, hdrop8]
    exact List.drop_left' rfl
  have hcrcF : (bs.drop (8 + data.length)).take 4 = pack32BE (crc32 (ty ++ data)) := by
    rw [hdrop8L]
    exact List.take_left' rfl
  have hdrop12 : bs.drop (12 + data.length) = rest := by
    rw [show 12 + data.length = 8 + data.length + 4 from by omega, ← List.drop_drop,
      hdrop8L]
    exact List.drop_left' rfl
  have hne : bs ≠ [] := by
    intro hnil
    rw [hnil] at hlen
    simp only [List.length_nil] at hlen
    omega
  simp only [parseChunks]
  rw [if_neg hne, hb0, if_pos ⟨by omega, by rw [hcrcF, htake4, htakeL]⟩,
    htake4, htakeL, hdrop12]

/-- Claim C1, counterexample: the directory entry does not carry color-planes=0
and bits-per-pixel=0 — its 16-bit field at offset 4 (planes) is not 0. -/
theorem c1_counterexample : ¬ (le16At d 4 = 0 ∧ le16At d 6 = 0) := by decide

/-- Claim C1, amended: in the ICO directory entry written by the script, the
color-planes field is 1 and the bits-per-pixel field is 32 (the same values
recorded in the DIB header); the single-byte color-count and reserved fields
at offsets 2 and 3 are 0. -/
theorem c1_dir_entry_fields :
    le16At d 4 = 1 ∧ le16At d 6 = 32 ∧ d.getD 2 0 = 0 ∧ d.getD 3 0 = 0 ∧
    le16At info 12 = 1 ∧ le16At info 14 = 32 := by decide

/-- Claim C2: `icon.ico` is exactly 1150 bytes — a 6-byte file header plus a
16-byte directory entry, then a 40-byte DIB header, a 1024-byte pixel array
and a 64-byte mask; the directory entry records image-data size 1128 (at
entry offset 8) and data offset 22 (at entry offset 12). -/
theorem c2_ico_sizes :
    icoBytes.length = 1150 ∧ hdr.length = 6 ∧ d.length = 16 ∧
    info.length = 40 ∧ px.length = 1024 ∧ mask.length = 64 ∧
    img.length = 40 + 1024 + 64 ∧
    le32At d 8 = 1128 ∧ le32At d 12 = 22 ∧
    le32At icoBytes 14 = 1128 ∧ le32At icoBytes 18 = 22 := by decide

/-- Claim C3: the ICO file header is reserved=0, type=1, count=1 as
little-endian 16-bit fields, and the directory entry declares width=16 and
height=16 as single bytes (file offsets 6 and 7). -/
theorem c3_ico_header :
    le16At icoBytes 0 = 0 ∧ le16At icoBytes 2 = 1 ∧ le16At icoBytes 4 = 1 ∧
    icoBytes.getD 6 0 = 16 ∧ icoBytes.getD 7 0 = 16 := by decide

/-- Claim C4: the DIB header is 40 bytes and records header-size=40, width=16,
height=32 (twice the 16-pixel height), planes=1, bit-count=32, compression=0,
and the five remaining fields all 0. -/
theorem c4_dib_header :
    info.length = 40 ∧ le32At info 0 = 40 ∧ le32At info 4 = 16 ∧
    le32At info 8 = 2 * 16 ∧ le16At info 12 = 1 ∧ le16At info 14 = 32 ∧
    le32At info 16 = 0 ∧ le32At info 20 = 0 ∧ le32At info 24 = 0 ∧
    le32At info 28 = 0 ∧ le32At info 32 = 0 ∧ le32At info 36 = 0 := by decide

/-- Claim C5: the pixel array is the fixed 4-byte fill color repeated for all
16×16 = 256 pixels with no padding (1024 bytes), and the AND mask is
16×4 = 64 bytes, all zero. -/
theorem c5_pixels_and_mask :
    px = List.flatten (List.replicate (w * h) fillBGRA) ∧
    px.length = w * h * 4 ∧
    mask = List.replicate (h * 4) 0 ∧ mask.length = h * 4 := by decide

/-- Claim C6: the PNG file is the fixed 8-byte signature followed by exactly
the three chunks IHDR, IDAT, IEND in that order; the independent chunk parser
— which reads each chunk as big-endian length, 4-byte tag, payload and
big-endian CRC-32 field, recomputes the CRC-32 over tag+payload and rejects
any mismatch — consumes the whole file and returns exactly those chunks. -/
theorem c6_png_chunks :
    parsePng pngBytes =
      some [(tyIHDR, ihdr_data), (tyIDAT, idatPayload), (tyIEND, [])] := by
  have hcrc1 : crc32 (tyIHDR ++ ihdr_data) < 4294967296 :=
    crc32_lt _ (by decide)
  have hcrc2 : crc32 (tyIDAT ++ idatPayload) < 4294967296 := by
    refine crc32_lt _ ?_
    intro x hx
    rcases List.mem_append.mp hx with h | h
    · fin_cases h <;> norm_num
    · exact idat_bytes_lt x h
  have hcrc3 : crc32 (tyIEND ++ []) < 4294967296 :=
    crc32_lt _ (by decide)
  have hassoc : pngBytes =
      pngSignature ++ (png_chunk tyIHDR ihdr_data ++
        (png_chunk tyIDAT idatPayload ++ (png_chunk tyIEND [] ++ []))) := by
    simp only [pngBytes, List.append_assoc, List.append_nil]
  have hlen : pngBytes.length = 4196 := by
    rw [hassoc]
    simp only [List.length_append, png_chunk_length tyIHDR ihdr_data rfl,
      png_chunk_length tyIDAT idatPayload rfl, png_chunk_length tyIEND [] rfl,
      idat_length]
    decide
  have hsig : pngSignature.length = 8 := rfl
  unfold parsePng
  rw [hassoc, List.take_left' hsig, if_pos rfl, List.drop_left' hsig, ← hassoc, hlen]
  rw [show (4196 : Nat) = 4195 + 1 from rfl,
    parseChunks_step 4195 tyIHDR ihdr_data _ rfl (by decide) hcrc1]
  rw [show (4195 : Nat) = 4194 + 1 from rfl,
    parseChunks_step 4194 tyIDAT idatPayload _ rfl (by rw [idat_length]; decide) hcrc2]
  rw [show (4194 : Nat) = 4193 + 1 from rfl,
    parseChunks_step 4193 tyIEND [] _ rfl (by decide) hcrc3]
  rw [parseChunks_nil]
  rfl

/-- Claim C7: the IHDR payload is exactly 13 bytes — width=32 and height=32 as
big-endian 32-bit fields, then bit-depth=8, color-type=6, compression=0,
filter=0, interlace=0. -/
theorem c7_ihdr_payload :
    ihdr_data.length = 13 ∧ be32At ihdr_data 0 = 32 ∧ be32At ihdr_data 4 = 32 ∧
    ihdr_data.getD 8 0 = 8 ∧ ihdr_data.getD 9 0 = 6 ∧ ihdr_data.getD 10 0 = 0 ∧
    ihdr_data.getD 11 0 = 0 ∧ ihdr_data.getD 12 0 = 0 := by decide

/-- Claim C8: zlib-decompressing the IDAT payload recovers the raw
pre-compression buffer, which consists of exactly 32 scanlines, each a
filter-type byte 0 followed by 32 repetitions of the 4-byte RGBA fill color
(so each scanline is 1 + 32*4 = 129 bytes and the buffer is 32*129 bytes). -/
theorem c8_idat_roundtrip :
    zlibDecompress idatPayload = some raw ∧
    raw = List.flatten (List.replicate h2 (0 :: List.flatten (List.replicate w2 fillRGBA))) ∧
    raw.length = h2 * (1 + w2 * 4) := by
  refine ⟨zlibDecompress_zlibCompress raw (by rw [raw_length]; norm_num), ?_, ?_⟩
  · rw [raw_eq]
    rfl
  · rw [raw_length]
    decide

/-- Claim C9: the generator takes no inputs and is deterministic — any two
runs produce identical `icon.ico` bytes and identical `icon.png` bytes. -/
theorem c9_deterministic : ∀ u v : Unit, runGenerator u = runGenerator v :=
  fun _ _ => rfl

/-- Claim C10: the two outputs encode the same underlying RGBA color
(0x3b, 0x82, 0xf6, 0xff) — the ICO pixel bytes are its BGRA serialization and
the PNG pixel bytes its RGBA serialization: reversing the first three bytes
of one yields the first three bytes of the other, and the alpha bytes agree. -/
theorem c10_same_color :
    fillBGRA = bgraOfRGBA fillRGBA ∧
    (fillBGRA.take 3).reverse = fillRGBA.take 3 ∧
    fillBGRA.getD 3 0 = fillRGBA.getD 3 0 ∧
    fillRGBA = [0x3b, 0x82, 0xf6, 0xff] ∧
    fillBGRA = [0xf6, 0x82, 0x3b, 0xff] := by decide

end GenIcon
